import Mathlib

/-
Verification of the aisms-ai decision engine against its specification.

Each Python model under src/models is shallow-embedded here: pure numeric
formulas become Lean functions over ℝ (where the source uses sqrt/log) or ℚ
(where the source uses only field arithmetic and comparisons).  The final
2/3/4-decimal rounding applied by the source when formatting output rows is
presentation only and is noted per definition where it occurs.
-/

namespace ReorderModel

/-- Safety stock from `calc` in `src/models/reorder_model.py` line 96:
`safety_stock = max(0.0, z * std_d * math.sqrt(lt))` where `std_d = max(0.0, std)`
(line 92).  The source rounds the output row to 3 decimals for presentation;
that formatting step is not modelled. -/
noncomputable def safety_stock (z std lt : ℝ) : ℝ :=
  max 0 (z * max 0 std * Real.sqrt lt)

/-- Reorder point from `calc` line 99: `max(0.0, avg_d * lt + safety_stock)` with
`avg_d = max(0.0, avg)` (line 91). -/
noncomputable def reorder_point (z avg std lt : ℝ) : ℝ :=
  max 0 (max 0 avg * lt + safety_stock z std lt)

/-- Suggested reorder quantity from `calc` line 102:
`max(0.0, reorder_point - stock)` with `stock = max(0.0, stock_in_hand)` (line 93). -/
noncomputable def suggested_qty (z avg std lt stock : ℝ) : ℝ :=
  max 0 (reorder_point z avg std lt - max 0 stock)

end ReorderModel

namespace InventoryOptimizationModel

/-- Status classification `_status` in `src/models/inventory_optimization_model.py`
lines 19-26.  Note the stockout branch compares against the tolerance 0.0001,
not against 0. -/
def _status (current safety optimal : ℚ) : String :=
  if current ≤ 0.0001 then "STOCKOUT"
  else if current < safety then "LOW"
  else if current ≤ optimal * 1.2 then "HEALTHY"
  else "OVERSTOCK"

end InventoryOptimizationModel

namespace InventoryModel

/-- Status classification of the variant policy in `src/models/inventory_model.py`
lines 47-53: understock is checked first, the overstock factor is 1.3, and there
is no stockout branch. -/
def variant_status (current safety optimal : ℚ) : String :=
  if current < safety then "UNDERSTOCK"
  else if current > optimal * 1.3 then "OVERSTOCK"
  else "OPTIMAL"

end InventoryModel

/-- C1: for nonnegative avg, std, z and lead time, the reorder computation yields
`safety_stock = z * std * sqrt(lt) ≥ 0` and
`reorder_point = avg * lt + safety_stock ≥ safety_stock`, and both quantities are
monotone nondecreasing in the service-level z and in the lead time. -/
theorem C1_reorder_formulas_monotone
    (avg std z lt z2 lt2 : ℝ) (havg : 0 ≤ avg) (hstd : 0 ≤ std)
    (hz : 0 ≤ z) (hlt : 0 ≤ lt) (hz2 : z ≤ z2) (hlt2 : lt ≤ lt2) :
    ReorderModel.safety_stock z std lt = z * std * Real.sqrt lt ∧
    0 ≤ ReorderModel.safety_stock z std lt ∧
    ReorderModel.reorder_point z avg std lt
      = avg * lt + ReorderModel.safety_stock z std lt ∧
    ReorderModel.safety_stock z std lt ≤ ReorderModel.reorder_point z avg std lt ∧
    ReorderModel.safety_stock z std lt ≤ ReorderModel.safety_stock z2 std lt ∧
    ReorderModel.safety_stock z std lt ≤ ReorderModel.safety_stock z std lt2 ∧
    ReorderModel.reorder_point z avg std lt ≤ ReorderModel.reorder_point z2 avg std lt ∧
    ReorderModel.reorder_point z avg std lt ≤ ReorderModel.reorder_point z avg std lt2 := by
  have hstd' : max 0 std = std := max_eq_right hstd
  have havg' : max 0 avg = avg := max_eq_right havg
  have hsqrt : 0 ≤ Real.sqrt lt := Real.sqrt_nonneg lt
  have hprod : 0 ≤ z * std * Real.sqrt lt :=
    mul_nonneg (mul_nonneg hz hstd) hsqrt
  have hss : ReorderModel.safety_stock z std lt = z * std * Real.sqrt lt := by
    rw [ReorderModel.safety_stock, hstd', max_eq_right hprod]
  have hss_nonneg : 0 ≤ ReorderModel.safety_stock z std lt := by
    rw [hss]; exact hprod
  have hsum : 0 ≤ avg * lt + ReorderModel.safety_stock z std lt :=
    add_nonneg (mul_nonneg havg hlt) hss_nonneg
  have hrp : ReorderModel.reorder_point z avg std lt
      = avg * lt + ReorderModel.safety_stock z std lt := by
    rw [ReorderModel.reorder_point, havg', max_eq_right hsum]
  have hss_le_rp : ReorderModel.safety_stock z std lt
      ≤ ReorderModel.reorder_point z avg std lt := by
    rw [hrp]
    have : 0 ≤ avg * lt := mul_nonneg havg hlt
    linarith
  have hss_mono_z : ReorderModel.safety_stock z std lt
      ≤ ReorderModel.safety_stock z2 std lt := by
    rw [ReorderModel.safety_stock, ReorderModel.safety_stock]
    exact max_le_max le_rfl
      (mul_le_mul_of_nonneg_right
        (mul_le_mul_of_nonneg_right hz2 (le_max_left 0 std)) hsqrt)
  have hss_mono_lt : ReorderModel.safety_stock z std lt
      ≤ ReorderModel.safety_stock z std lt2 := by
    rw [ReorderModel.safety_stock, ReorderModel.safety_stock]
    exact max_le_max le_rfl
      (mul_le_mul_of_nonneg_left (Real.sqrt_le_sqrt hlt2)
        (mul_nonneg hz (le_max_left 0 std)))
  have hrp_mono_z : ReorderModel.reorder_point z avg std lt
      ≤ ReorderModel.reorder_point z2 avg std lt := by
    rw [ReorderModel.reorder_point, ReorderModel.reorder_point]
    exact max_le_max le_rfl (add_le_add le_rfl hss_mono_z)
  have hrp_mono_lt : ReorderModel.reorder_point z avg std lt
      ≤ ReorderModel.reorder_point z avg std lt2 := by
    rw [ReorderModel.reorder_point, ReorderModel.reorder_point]
    refine max_le_max le_rfl (add_le_add ?_ hss_mono_lt)
    exact mul_le_mul_of_nonneg_left hlt2 (le_max_left 0 avg)
  exact ⟨hss, hss_nonneg, hrp, hss_le_rp, hss_mono_z, hss_mono_lt,
    hrp_mono_z, hrp_mono_lt⟩

/-- Witness for C1 at avg = 1, std = 1, z = 1, lt = 4, z2 = 2, lt2 = 9. -/
theorem C1_reorder_formulas_monotone_witness :
    ReorderModel.safety_stock 1 1 4 = 1 * 1 * Real.sqrt 4 ∧
    0 ≤ ReorderModel.safety_stock 1 1 4 ∧
    ReorderModel.reorder_point 1 1 1 4 = 1 * 4 + ReorderModel.safety_stock 1 1 4 ∧
    ReorderModel.safety_stock 1 1 4 ≤ ReorderModel.reorder_point 1 1 1 4 ∧
    ReorderModel.safety_stock 1 1 4 ≤ ReorderModel.safety_stock 2 1 4 ∧
    ReorderModel.safety_stock 1 1 4 ≤ ReorderModel.safety_stock 1 1 9 ∧
    ReorderModel.reorder_point 1 1 1 4 ≤ ReorderModel.reorder_point 2 1 1 4 ∧
    ReorderModel.reorder_point 1 1 1 4 ≤ ReorderModel.reorder_point 1 1 1 9 :=
  C1_reorder_formulas_monotone 1 1 1 4 2 9 (by norm_num) (by norm_num)
    (by norm_num) (by norm_num) (by norm_num) (by norm_num)

/-- C2 counterexample: at current = 0.0001, safety = 1, optimal = 10, the claim
demands LOW (current is strictly positive and below safety stock) but the code
returns STOCKOUT, because the stockout branch uses the tolerance
`current ≤ 0.0001` rather than `current ≤ 0`. -/
theorem C2_status_counterexample :
    InventoryOptimizationModel._status 0.0001 1 10 = "STOCKOUT" ∧
    (0 : ℚ) < 0.0001 ∧ (0.0001 : ℚ) < 1 := by
  refine ⟨?_, by norm_num, by norm_num⟩
  rw [InventoryOptimizationModel._status, if_pos (by norm_num : (0.0001 : ℚ) ≤ 0.0001)]

/-- C2 amended: the main policy classifies `current ≤ 0.0001` as STOCKOUT (a
tolerance, not exactly 0), then `current < safety` as LOW, then
`current ≤ optimal * 1.2` as HEALTHY, else OVERSTOCK; the 1.3-factor variant
policy has no stockout branch: `current < safety` gives UNDERSTOCK (even at or
below zero stock), then `current > optimal * 1.3` gives OVERSTOCK, else OPTIMAL. -/
theorem C2_status_amended (c s o : ℚ) :
    (c ≤ 0.0001 → InventoryOptimizationModel._status c s o = "STOCKOUT") ∧
    (0.0001 < c → c < s → InventoryOptimizationModel._status c s o = "LOW") ∧
    (0.0001 < c → s ≤ c → c ≤ o * 1.2 →
      InventoryOptimizationModel._status c s o = "HEALTHY") ∧
    (0.0001 < c → s ≤ c → o * 1.2 < c →
      InventoryOptimizationModel._status c s o = "OVERSTOCK") ∧
    (c < s → InventoryModel.variant_status c s o = "UNDERSTOCK") ∧
    (s ≤ c → o * 1.3 < c → InventoryModel.variant_status c s o = "OVERSTOCK") ∧
    (s ≤ c → c ≤ o * 1.3 → InventoryModel.variant_status c s o = "OPTIMAL") := by
  refine ⟨?_, ?_, ?_, ?_, ?_, ?_, ?_⟩
  · intro h1
    rw [InventoryOptimizationModel._status, if_pos h1]
  · intro h1 h2
    rw [InventoryOptimizationModel._status, if_neg (by linarith), if_pos h2]
  · intro h1 h2 h3
    rw [InventoryOptimizationModel._status, if_neg (by linarith),
      if_neg (by linarith), if_pos h3]
  · intro h1 h2 h3
    rw [InventoryOptimizationModel._status, if_neg (by linarith),
      if_neg (by linarith), if_neg (by linarith)]
  · intro h1
    rw [InventoryModel.variant_status, if_pos h1]
  · intro h1 h2
    rw [InventoryModel.variant_status, if_neg (by linarith), if_pos h2]
  · intro h1 h2
    rw [InventoryModel.variant_status, if_neg (by linarith), if_neg (by linarith)]

/-- Witness for C2 amended at current = 5, safety = 1, optimal = 10: the main
policy reports HEALTHY and the variant policy reports OPTIMAL. -/
theorem C2_status_amended_witness :
    InventoryOptimizationModel._status 5 1 10 = "HEALTHY" ∧
    InventoryModel.variant_status 5 1 10 = "OPTIMAL" :=
  ⟨(C2_status_amended 5 1 10).2.2.1 (by norm_num) (by norm_num) (by norm_num),
   (C2_status_amended 5 1 10).2.2.2.2.2.2 (by norm_num) (by norm_num)⟩

namespace Stats

/-- Arithmetic mean of a list, as computed by `pandas.Series.mean` and `np.mean`;
the empty list gives 0/0 = 0 under real division. -/
noncomputable def mean (xs : List ℝ) : ℝ := xs.sum / xs.length

/-- Population variance (`ddof=0`), the square deviations averaged over n. -/
noncomputable def pvariance (xs : List ℝ) : ℝ :=
  mean (xs.map (fun x => (x - mean xs) ^ 2))

/-- Population standard deviation, as computed by `Series.std(ddof=0)` and
`np.std`. -/
noncomputable def pstdev (xs : List ℝ) : ℝ := Real.sqrt (pvariance xs)

/-- Sample variance (`ddof=1`), the diagonal of `np.cov`. -/
noncomputable def svar (xs : List ℝ) : ℝ :=
  (xs.map (fun x => (x - mean xs) ^ 2)).sum / ((xs.length : ℝ) - 1)

/-- Sample covariance (`ddof=1`), the off-diagonal entry of `np.cov`. -/
noncomputable def scov (xs ys : List ℝ) : ℝ :=
  (List.zipWith (fun a b => (a - mean xs) * (b - mean ys)) xs ys).sum
    / ((xs.length : ℝ) - 1)

theorem mean_replicate (n : ℕ) (c : ℝ) (hn : n ≠ 0) :
    mean (List.replicate n c) = c := by
  have hn' : (n : ℝ) ≠ 0 := by exact_mod_cast hn
  rw [mean, List.sum_replicate, List.length_replicate, nsmul_eq_mul]
  field_simp

theorem pstdev_replicate (n : ℕ) (c : ℝ) (hn : n ≠ 0) :
    pstdev (List.replicate n c) = 0 := by
  rw [pstdev, pvariance, mean_replicate n c hn, List.map_replicate]
  have h0 : ((c - c) ^ 2 : ℝ) = 0 := by ring
  rw [h0, mean, List.sum_replicate, smul_zero, zero_div, Real.sqrt_zero]

theorem pstdev_singleton (c : ℝ) : pstdev [c] = 0 :=
  pstdev_replicate 1 c one_ne_zero

end Stats

namespace AnomalyModel

/-- Input of `detect_sales_anomalies` (src/models/anomaly_model.py): the per-sale
total amounts in date order, together with the isolation-forest outputs
(`decision_function` score and `fit_predict == -1` flag per index).  The forest
itself is an external sklearn estimator, so its per-point outputs are taken as
oracle parameters; the source consults them only when the series has more than
10 points (lines 91-98). -/
structure Input where
  amounts : List ℝ
  isoScoreRaw : ℕ → ℝ
  isoFlagRaw : ℕ → Bool

/-- Z-score per index (line 85): the whole column is 0 when the population
standard deviation is 0, otherwise (x − mean) / std. -/
noncomputable def zScore (inp : Input) (i : ℕ) : ℝ :=
  if Stats.pstdev inp.amounts = 0 then 0
  else (inp.amounts.getD i 0 - Stats.mean inp.amounts) / Stats.pstdev inp.amounts

/-- Statistical flag (line 86): |z| > 3.0. -/
def is_z_anomaly (inp : Input) (i : ℕ) : Prop := 3 < |zScore inp i|

/-- Isolation score (lines 91-97): the forest score when the series has more
than 10 points, else the neutral 0.5. -/
noncomputable def isoScore (inp : Input) (i : ℕ) : ℝ :=
  if 10 < inp.amounts.length then inp.isoScoreRaw i else 0.5

/-- Isolation flag (lines 95-98): the forest label when the series has more than
10 points, else never flagged. -/
def isoFlag (inp : Input) (i : ℕ) : Bool :=
  if 10 < inp.amounts.length then inp.isoFlagRaw i else false

/-- Combined detection (line 103): logical OR of the two detectors. -/
def is_anomaly (inp : Input) (i : ℕ) : Prop :=
  is_z_anomaly inp i ∨ isoFlag inp i = true

/-- Severity (line 106): |z| + (1 − iso_score). -/
noncomputable def severity (inp : Input) (i : ℕ) : ℝ :=
  |zScore inp i| + (1 - isoScore inp i)

open scoped Classical

/-- Level mapping `level_of` (lines 109-114). -/
noncomputable def level (inp : Input) (i : ℕ) : String :=
  if ¬ is_anomaly inp i then "INFO"
  else if 4 < severity inp i then "ALERT"
  else "WARN"

/-- Emitted records (lines 121-140): one (index, severity, level) triple per
sale, skipping every non-anomalous row.  The source additionally rounds the
persisted score to 4 decimals and attaches identifiers and a reason string;
those presentation fields are not modelled. -/
noncomputable def results (inp : Input) : List (ℕ × ℝ × String) :=
  ((List.range inp.amounts.length).filter (fun i => decide (is_anomaly inp i))).map
    (fun i => (i, severity inp i, level inp i))

/-- A 20-point series of identical amounts, used as sample input. -/
noncomputable def identical20 : Input :=
  ⟨List.replicate 20 7, fun _ => 0, fun _ => false⟩

end AnomalyModel

/-- C3: a sale is reported anomalous iff the z-score detector or the isolation
detector flags it (logical OR); its severity is |z| + (1 − outlier score); among
anomalous sales the level is ALERT exactly when severity > 4 and WARN otherwise;
and only anomalous sales appear in the emitted records. -/
theorem C3_anomaly_ensemble (inp : AnomalyModel.Input) (i : ℕ)
    (hi : i < inp.amounts.length) :
    ((∃ r ∈ AnomalyModel.results inp, r.1 = i) ↔ AnomalyModel.is_anomaly inp i) ∧
    (AnomalyModel.is_anomaly inp i ↔
      (AnomalyModel.is_z_anomaly inp i ∨ AnomalyModel.isoFlag inp i = true)) ∧
    AnomalyModel.severity inp i
      = |AnomalyModel.zScore inp i| + (1 - AnomalyModel.isoScore inp i) ∧
    (AnomalyModel.is_anomaly inp i →
      ((AnomalyModel.level inp i = "ALERT" ↔ 4 < AnomalyModel.severity inp i) ∧
       (AnomalyModel.level inp i = "WARN" ↔ AnomalyModel.severity inp i ≤ 4))) ∧
    (∀ r ∈ AnomalyModel.results inp, AnomalyModel.is_anomaly inp r.1) := by
  classical
  refine ⟨?_, Iff.rfl, rfl, ?_, ?_⟩
  · constructor
    · rintro ⟨r, hr, hri⟩
      simp only [AnomalyModel.results, List.mem_map, List.mem_filter,
        List.mem_range, decide_eq_true_eq] at hr
      obtain ⟨j, ⟨_, hj⟩, hjr⟩ := hr
      rw [← hri, ← hjr]
      exact hj
    · intro h
      refine ⟨(i, AnomalyModel.severity inp i, AnomalyModel.level inp i), ?_, rfl⟩
      simp only [AnomalyModel.results, List.mem_map, List.mem_filter,
        List.mem_range, decide_eq_true_eq]
      exact ⟨i, ⟨hi, h⟩, rfl⟩
  · intro h
    rw [AnomalyModel.level, if_neg (not_not_intro h)]
    by_cases hs : 4 < AnomalyModel.severity inp i
    · rw [if_pos hs]
      refine ⟨⟨fun _ => hs, fun _ => rfl⟩, ?_, ?_⟩
      · intro hw
        exact absurd hw (by decide)
      · intro hle
        exact absurd hs (not_lt.mpr hle)
    · rw [if_neg hs]
      refine ⟨⟨?_, fun h4 => absurd h4 hs⟩, fun _ => not_lt.mp hs, fun _ => rfl⟩
      intro hw
      exact absurd hw (by decide)
  · intro r hr
    simp only [AnomalyModel.results, List.mem_map, List.mem_filter,
      List.mem_range, decide_eq_true_eq] at hr
    obtain ⟨j, ⟨_, hj⟩, hjr⟩ := hr
    rw [← hjr]
    exact hj

/-- C4: whenever the population standard deviation of the amounts is zero, every
z-score is taken to be 0 and the statistical detector flags nothing. -/
theorem C4_zero_stdev_no_flags (inp : AnomalyModel.Input)
    (h : Stats.pstdev inp.amounts = 0) (i : ℕ) :
    AnomalyModel.zScore inp i = 0 ∧ ¬ AnomalyModel.is_z_anomaly inp i := by
  have hz : AnomalyModel.zScore inp i = 0 := by
    rw [AnomalyModel.zScore, if_pos h]
  refine ⟨hz, ?_⟩
  rw [AnomalyModel.is_z_anomaly, hz]
  norm_num

/-- Witness for C4 on a series of 20 identical amounts. -/
theorem C4_zero_stdev_no_flags_witness :
    AnomalyModel.zScore AnomalyModel.identical20 0 = 0 ∧
    ¬ AnomalyModel.is_z_anomaly AnomalyModel.identical20 0 :=
  C4_zero_stdev_no_flags AnomalyModel.identical20
    (Stats.pstdev_replicate 20 7 (by norm_num)) 0

/-- Witness for C3 on the identical-amounts series at index 0. -/
theorem C3_anomaly_ensemble_witness :
    ((∃ r ∈ AnomalyModel.results AnomalyModel.identical20, r.1 = 0) ↔
      AnomalyModel.is_anomaly AnomalyModel.identical20 0) ∧
    (AnomalyModel.is_anomaly AnomalyModel.identical20 0 ↔
      (AnomalyModel.is_z_anomaly AnomalyModel.identical20 0 ∨
       AnomalyModel.isoFlag AnomalyModel.identical20 0 = true)) ∧
    AnomalyModel.severity AnomalyModel.identical20 0
      = |AnomalyModel.zScore AnomalyModel.identical20 0|
        + (1 - AnomalyModel.isoScore AnomalyModel.identical20 0) ∧
    (AnomalyModel.is_anomaly AnomalyModel.identical20 0 →
      ((AnomalyModel.level AnomalyModel.identical20 0 = "ALERT" ↔
         4 < AnomalyModel.severity AnomalyModel.identical20 0) ∧
       (AnomalyModel.level AnomalyModel.identical20 0 = "WARN" ↔
         AnomalyModel.severity AnomalyModel.identical20 0 ≤ 4))) ∧
    (∀ r ∈ AnomalyModel.results AnomalyModel.identical20,
      AnomalyModel.is_anomaly AnomalyModel.identical20 r.1) :=
  C3_anomaly_ensemble AnomalyModel.identical20 0
    (by rw [AnomalyModel.identical20, List.length_replicate]; norm_num)

namespace ForecastModel

/-- Minimum series length to train, `MIN_TS_POINTS` in src/utils/ai_config.py line 4. -/
def MIN_TS_POINTS : ℕ := 3

/-- State of the cached model file for one key: no file on disk, a file that
fails to load, or a file that loads to a model. -/
inductive CacheState (M : Type) where
  | absent : CacheState M
  | corrupt : CacheState M
  | loaded : M → CacheState M

/-- Shallow embedding of `_load_or_train` (src/models/forecast_model.py lines
22-33): a loadable cached model is reused as is; a missing or corrupt file
falls back to fitting a fresh model, which is then saved.  `fitted` stands for
the model Prophet would fit on the series; the Bool records whether a fresh fit
was saved. -/
def load_or_train {M : Type} (cache : CacheState M) (fitted : M) : M × Bool :=
  match cache with
  | .loaded m => (m, false)
  | .corrupt => (fitted, true)
  | .absent => (fitted, true)

/-- Per-key slice of `train_and_predict` (lines 73-97): groups shorter than
`MIN_TS_POINTS` are skipped with `continue` (no rows, no error); otherwise the
loaded-or-freshly-trained model produces exactly `days_ahead` future rows.
`predict m j` stands for the model's yhat at the j-th future day. -/
def train_and_predict_key {M : Type} (series : List ℚ) (cache : CacheState M)
    (fitted : M) (predict : M → ℕ → ℚ) (days_ahead : ℕ) : List ℚ :=
  if series.length < MIN_TS_POINTS then []
  else (List.range days_ahead).map (predict (load_or_train cache fitted).1)

end ForecastModel

/-- C7 counterexample: a key with no cached model but a 3-point series is not
skipped — the manager trains a fresh model and emits a full horizon of
forecast rows (30 here), contradicting the claim that an uncached key returns
no points. -/
theorem C7_uncached_key_counterexample :
    ForecastModel.train_and_predict_key [1, 2, 3] ForecastModel.CacheState.absent ()
      (fun _ _ => 0) 30 ≠ [] ∧
    (ForecastModel.train_and_predict_key [1, 2, 3] ForecastModel.CacheState.absent ()
      (fun _ _ => 0) 30).length = 30 := by
  constructor
  · intro h
    have := congrArg List.length h
    simp [ForecastModel.train_and_predict_key, ForecastModel.MIN_TS_POINTS] at this
  · simp [ForecastModel.train_and_predict_key, ForecastModel.MIN_TS_POINTS]

/-- C7 amended: a key whose series has fewer than the minimum-points threshold
(default 3) is skipped — the manager returns no forecast points for it and
raises no error, so a batch degrades gracefully per sub-key; a key with at
least 3 points always yields exactly `days_ahead` points, training a fresh
model when none is cached. -/
theorem C7_short_series_skipped {M : Type} (series : List ℚ)
    (cache : ForecastModel.CacheState M) (fitted : M) (predict : M → ℕ → ℚ)
    (days_ahead : ℕ) :
    (series.length < ForecastModel.MIN_TS_POINTS →
      ForecastModel.train_and_predict_key series cache fitted predict days_ahead = []) ∧
    (ForecastModel.MIN_TS_POINTS ≤ series.length →
      (ForecastModel.train_and_predict_key series cache fitted predict
        days_ahead).length = days_ahead) := by
  constructor
  · intro h
    rw [ForecastModel.train_and_predict_key, if_pos h]
  · intro h
    rw [ForecastModel.train_and_predict_key, if_neg (not_lt.mpr h),
      List.length_map, List.length_range]

/-- Witness for C7 amended: a 1-point series is skipped and a 3-point series
yields a full 30-point horizon. -/
theorem C7_short_series_skipped_witness :
    ForecastModel.train_and_predict_key [5] ForecastModel.CacheState.absent ()
      (fun _ _ => 0) 30 = [] ∧
    (ForecastModel.train_and_predict_key [1, 2, 3]
      (ForecastModel.CacheState.loaded ()) () (fun _ _ => 0) 30).length = 30 :=
  ⟨(C7_short_series_skipped [5] ForecastModel.CacheState.absent ()
      (fun _ _ => 0) 30).1 (by decide),
   (C7_short_series_skipped [1, 2, 3] (ForecastModel.CacheState.loaded ()) ()
      (fun _ _ => 0) 30).2 (by decide)⟩

/-- C8: a corrupt cached model never surfaces as an error — the key is treated
exactly like an untrained key: the fresh model fitted on the series is used and
saved, and the whole per-key forecast output is identical to the uncached
case. -/
theorem C8_corrupt_cache_retrains {M : Type} (fitted : M) (series : List ℚ)
    (predict : M → ℕ → ℚ) (days_ahead : ℕ) :
    ForecastModel.load_or_train ForecastModel.CacheState.corrupt fitted
      = (fitted, true) ∧
    ForecastModel.load_or_train ForecastModel.CacheState.corrupt fitted
      = ForecastModel.load_or_train ForecastModel.CacheState.absent fitted ∧
    ForecastModel.train_and_predict_key series ForecastModel.CacheState.corrupt
        fitted predict days_ahead
      = ForecastModel.train_and_predict_key series ForecastModel.CacheState.absent
          fitted predict days_ahead :=
  ⟨rfl, rfl, rfl⟩

namespace DynamicPricingModel

/-- Price elasticity `calc_price_elasticity` (src/models/dynamic_pricing_model.py
lines 15-31) on the day-ordered (unit_price, quantity) pairs of one product:
fewer than 2 raw rows gives the default −1.0; rows with nonpositive quantity are
dropped (the caller's SQL already guarantees price > 0 and the initial day sort
does not affect the value); an empty remainder or zero `np.std` of the
log-prices gives −1.0; otherwise the slope is the sample covariance of the logs
over the sample variance of log-price, the `np.cov` entry ratio. -/
noncomputable def calc_price_elasticity (df : List (ℝ × ℝ)) : ℝ :=
  if df.length < 2 then -1
  else
    let d2 := df.filter (fun r => decide (0 < r.2))
    if d2.length = 0 then -1
    else
      let x := d2.map (fun r => Real.log r.1)
      let y := d2.map (fun r => Real.log r.2)
      if Stats.pstdev x = 0 then -1
      else Stats.scov x y / Stats.svar x

end DynamicPricingModel

/-- C5: the elasticity is the slope of log-quantity versus log-price (covariance
of the logs over the variance of log-price) computed over the pairs with
positive quantity (price positivity is supplied upstream); it defaults to −1.0
whenever fewer than 2 usable points remain or the log-price deviation is zero;
and a perfectly log-log linear series of slope −1.2 is recovered exactly. -/
theorem C5_elasticity_slope (df : List (ℝ × ℝ)) :
    ((df.filter (fun r => decide (0 < r.2))).length < 2 →
      DynamicPricingModel.calc_price_elasticity df = -1) ∧
    (Stats.pstdev ((df.filter (fun r => decide (0 < r.2))).map
        (fun r => Real.log r.1)) = 0 →
      DynamicPricingModel.calc_price_elasticity df = -1) ∧
    (2 ≤ (df.filter (fun r => decide (0 < r.2))).length →
      Stats.pstdev ((df.filter (fun r => decide (0 < r.2))).map
        (fun r => Real.log r.1)) ≠ 0 →
      DynamicPricingModel.calc_price_elasticity df
        = Stats.scov
            ((df.filter (fun r => decide (0 < r.2))).map (fun r => Real.log r.1))
            ((df.filter (fun r => decide (0 < r.2))).map (fun r => Real.log r.2))
          / Stats.svar
            ((df.filter (fun r => decide (0 < r.2))).map (fun r => Real.log r.1))) ∧
    DynamicPricingModel.calc_price_elasticity
      [((1 : ℝ), (1 : ℝ)), (Real.exp 1, Real.exp (-1.2))] = -1.2 := by
  have hle : (df.filter (fun r => decide (0 < r.2))).length ≤ df.length :=
    List.length_filter_le _ df
  refine ⟨?_, ?_, ?_, ?_⟩
  · intro h2
    by_cases hlen : df.length < 2
    · simp only [DynamicPricingModel.calc_price_elasticity]
      rw [if_pos hlen]
    · simp only [DynamicPricingModel.calc_price_elasticity]
      rw [if_neg hlen]
      have h01 : (df.filter (fun r => decide (0 < r.2))).length = 0 ∨
          (df.filter (fun r => decide (0 < r.2))).length = 1 := by omega
      rcases h01 with h0 | h1
      · rw [if_pos h0]
      · rw [if_neg (by omega)]
        obtain ⟨a, ha⟩ := List.length_eq_one.mp h1
        rw [ha, List.map_cons, List.map_nil, if_pos (Stats.pstdev_singleton _)]
  · intro hstd
    by_cases hlen : df.length < 2
    · simp only [DynamicPricingModel.calc_price_elasticity]
      rw [if_pos hlen]
    · simp only [DynamicPricingModel.calc_price_elasticity]
      rw [if_neg hlen]
      by_cases h0 : (df.filter (fun r => decide (0 < r.2))).length = 0
      · rw [if_pos h0]
      · rw [if_neg h0, if_pos hstd]
  · intro h2 hstd
    have hlen : ¬ df.length < 2 := by omega
    simp only [DynamicPricingModel.calc_price_elasticity]
    rw [if_neg hlen, if_neg (by omega), if_neg hstd]
  · have hfilter : [((1 : ℝ), (1 : ℝ)), (Real.exp 1, Real.exp (-1.2))].filter
        (fun r => decide (0 < r.2))
        = [((1 : ℝ), (1 : ℝ)), (Real.exp 1, Real.exp (-1.2))] := by
      rw [List.filter_cons_of_pos (by simp),
        List.filter_cons_of_pos (by simp [Real.exp_pos]), List.filter_nil]
    have hx : [((1 : ℝ), (1 : ℝ)), (Real.exp 1, Real.exp (-1.2))].map
        (fun r => Real.log r.1) = [0, 1] := by
      simp [Real.log_one, Real.log_exp]
    have hy : [((1 : ℝ), (1 : ℝ)), (Real.exp 1, Real.exp (-1.2))].map
        (fun r => Real.log r.2) = [0, -1.2] := by
      simp [Real.log_one, Real.log_exp]
    have hmx : Stats.mean [(0 : ℝ), 1] = 1 / 2 := by
      norm_num [Stats.mean]
    have hvar : Stats.pvariance [(0 : ℝ), 1] = 1 / 4 := by
      norm_num [Stats.pvariance, Stats.mean]
    have hstd : Stats.pstdev [(0 : ℝ), 1] = 1 / 2 := by
      rw [Stats.pstdev, hvar, show (1 / 4 : ℝ) = (1 / 2) ^ 2 by norm_num,
        Real.sqrt_sq (by norm_num)]
    have hmy : Stats.mean [(0 : ℝ), -1.2] = -(0.6 : ℝ) := by
      norm_num [Stats.mean]
    have hcov : Stats.scov [(0 : ℝ), 1] [(0 : ℝ), -1.2] = -(0.6 : ℝ) := by
      norm_num [Stats.scov, Stats.mean, List.zipWith]
    have hsv : Stats.svar [(0 : ℝ), 1] = 1 / 2 := by
      norm_num [Stats.svar, Stats.mean]
    simp only [DynamicPricingModel.calc_price_elasticity]
    rw [if_neg (show ¬ ([((1 : ℝ), (1 : ℝ)),
        (Real.exp 1, Real.exp (-1.2))].length < 2) by simp), hfilter, hx, hy]
    rw [if_neg (show ¬ ([((1 : ℝ), (1 : ℝ)),
        (Real.exp 1, Real.exp (-1.2))].length = 0) by simp)]
    rw [if_neg (show ¬ Stats.pstdev [(0 : ℝ), 1] = 0 by rw [hstd]; norm_num),
      hcov, hsv]
    norm_num

/-- Witness for C5: the empty series defaults to −1 and the synthetic log-log
linear series recovers −1.2. -/
theorem C5_elasticity_slope_witness :
    DynamicPricingModel.calc_price_elasticity [] = -1 ∧
    DynamicPricingModel.calc_price_elasticity
      [((1 : ℝ), (1 : ℝ)), (Real.exp 1, Real.exp (-1.2))] = -1.2 :=
  ⟨(C5_elasticity_slope []).1 (by simp), (C5_elasticity_slope []).2.2.2⟩

namespace CustomerSegmentationModel

/-- Ordered insertion into an ascending list. -/
def insertAsc (x : ℚ) : List ℚ → List ℚ
  | [] => [x]
  | y :: ys => if x ≤ y then x :: y :: ys else y :: insertAsc x ys

/-- Ascending sort of the column values, the order underlying the quantile
computation of `pd.qcut` / `Series.median`. -/
def sortAsc (xs : List ℚ) : List ℚ := xs.foldr insertAsc []

/-- Linear-interpolation quantile as computed by numpy/pandas
(`interpolation='linear'`): with s the sorted values and h = q·(n−1), the
result is s[⌊h⌋] + (h − ⌊h⌋)·(s[⌊h⌋+1] − s[⌊h⌋]). -/
def quantile (xs : List ℚ) (q : ℚ) : ℚ :=
  let s := sortAsc xs
  if s.length = 0 then 0
  else
    let h : ℚ := q * ((s.length : ℚ) - 1)
    let k : ℕ := (Int.floor h).toNat
    let a := s.getD k 0
    a + (h - (k : ℚ)) * (s.getD (k + 1) a - a)

/-- Quintile bin edges, `np.quantile(x, [0, .2, .4, .6, .8, 1])`, which is what
`pd.qcut(x, 5)` computes. -/
def quintEdges (xs : List ℚ) : List ℚ :=
  [quantile xs 0, quantile xs (1 / 5), quantile xs (2 / 5), quantile xs (3 / 5),
   quantile xs (4 / 5), quantile xs 1]

/-- Strict ascent of the edge list; `pd.qcut` raises ValueError ("Bin edges
must be unique") exactly when this fails, sending the source to its median-split
fallback branch. -/
def strictAscend : List ℚ → Bool
  | [] => true
  | [_] => true
  | a :: b :: rest => if a < b then strictAscend (b :: rest) else false

/-- Bin label of `pd.qcut` with ascending labels [1,2,3,4,5]: the bins are the
right-closed intervals between consecutive edges (the leftmost edge is widened
to include the minimum), so the label is 1 plus the number of internal edges
strictly below the value. -/
def qcutLabelAsc (es : List ℚ) (v : ℚ) : ℕ :=
  1 + (((es.drop 1).take 4).filter (fun e => decide (e < v))).length

/-- Bin label of `pd.qcut` with descending labels [5,4,3,2,1] (used for the
recency score): bin b receives label 5 − b. -/
def qcutLabelDesc (es : List ℚ) (v : ℚ) : ℕ :=
  5 - (((es.drop 1).take 4).filter (fun e => decide (e < v))).length

/-- pandas `rank(method='first')` of element i: one-based, ties broken by
position of first occurrence. -/
def rankFirst (xs : List ℚ) (i : ℕ) : ℚ :=
  (((List.range xs.length).filter (fun j =>
    decide (xs.getD j 0 < xs.getD i 0 ∨
      (xs.getD j 0 = xs.getD i 0 ∧ j ≤ i)))).length : ℚ)

/-- The whole rank column of a series. -/
def ranksList (xs : List ℚ) : List ℚ := (List.range xs.length).map (rankFirst xs)

/-- Shared recipe of the f and m scores
(src/models/customer_segmentation_model.py lines 92-102):
`pd.qcut(column.rank(method='first'), 5, labels=[1,2,3,4,5])`, falling back on
ValueError to the median split assigning 2 (at or below the median) or 4. -/
def rankQuintScore (xs : List ℚ) (i : ℕ) : ℕ :=
  let es := quintEdges (ranksList xs)
  if strictAscend es then qcutLabelAsc es (rankFirst xs i)
  else if xs.getD i 0 ≤ quantile xs (1 / 2) then 2 else 4

/-- f_score (lines 92-96) on the frequency column. -/
def f_score (freq : List ℚ) (i : ℕ) : ℕ := rankQuintScore freq i

/-- m_score (lines 98-102) on the monetary column. -/
def m_score (monetary : List ℚ) (i : ℕ) : ℕ := rankQuintScore monetary i

/-- r_score (lines 85-90): `pd.qcut(recency_days, 5, labels=[5,4,3,2,1])` on the
raw recency values (no rank step), falling back on ValueError to the median
split assigning 5 (at or below the median) or 3. -/
def r_score (recency : List ℚ) (i : ℕ) : ℕ :=
  let es := quintEdges recency
  if strictAscend es then qcutLabelDesc es (recency.getD i 0)
  else if recency.getD i 0 ≤ quantile recency (1 / 2) then 5 else 3

/-- Rounding to 2 decimals (line 106).  Python rounds half to even, but the clv
values 100·k/15 are never half-cent ties, so round-half-up agrees on every value
this is applied to. -/
def round2 (x : ℚ) : ℚ := ((round (x * 100) : ℤ) : ℚ) / 100

/-- clv_score (lines 105-106): (r+f+m)/15·100, clipped to [0,100], rounded to 2
decimals. -/
def clv_score (r f m : ℕ) : ℚ :=
  round2 (min 100 (max 0 (((r : ℚ) + f + m) / 15 * 100)))

/-- _segment (lines 109-120), applied to the stored clv score. -/
def _segment (score : ℚ) : String :=
  if 80 ≤ score then "Champions"
  else if 60 ≤ score then "Loyal"
  else if 40 ≤ score then "At Risk"
  else if 20 ≤ score then "Churn Risk"
  else "New"

end CustomerSegmentationModel

namespace CustomerSegmentationModel

theorem length_filter_range_le (n i : ℕ) :
    ((List.range n).filter (fun j => decide (j ≤ i))).length = min (i + 1) n := by
  induction n with
  | zero => simp
  | succ m ih =>
      rw [List.range_succ, List.filter_append, List.length_append, ih]
      by_cases h : m ≤ i
      · simp [h]
        omega
      · simp [h]
        omega

theorem rankFirst_sorted (xs : List ℚ) (hs : xs.Pairwise (· < ·)) (i : ℕ)
    (hi : i < xs.length) :
    rankFirst xs i = (i : ℚ) + 1 := by
  have hget : ∀ a b : ℕ, a < xs.length → b < xs.length → a < b →
      xs.getD a 0 < xs.getD b 0 := by
    intro a b ha hb hab
    rw [List.getD_eq_getElem xs 0 ha, List.getD_eq_getElem xs 0 hb]
    exact List.pairwise_iff_getElem.mp hs a b ha hb hab
  have hcongr : ∀ j ∈ List.range xs.length,
      (decide (xs.getD j 0 < xs.getD i 0 ∨
        (xs.getD j 0 = xs.getD i 0 ∧ j ≤ i)) : Bool) = decide (j ≤ i) := by
    intro j hj
    rw [List.mem_range] at hj
    rcases lt_trichotomy j i with h | h | h
    · simp only [decide_eq_decide]
      constructor
      · intro _; omega
      · intro _; exact Or.inl (hget j i hj hi h)
    · subst h
      simp
    · simp only [decide_eq_decide]
      constructor
      · rintro (hlt | ⟨heq, hle⟩)
        · exact absurd hlt (not_lt.mpr (le_of_lt (hget i j hi hj h)))
        · exact absurd heq (ne_of_gt (hget i j hi hj h))
      · intro hle; omega
  rw [rankFirst, List.filter_congr hcongr, length_filter_range_le]
  have hmin : min (i + 1) xs.length = i + 1 := by omega
  rw [hmin]
  push_cast
  ring

theorem ranksList_sorted_five (xs : List ℚ) (h5 : xs.length = 5)
    (hs : xs.Pairwise (· < ·)) :
    ranksList xs = [1, 2, 3, 4, 5] := by
  rw [ranksList, h5, show List.range 5 = [0, 1, 2, 3, 4] from rfl]
  simp only [List.map_cons, List.map_nil]
  rw [rankFirst_sorted xs hs 0 (by omega), rankFirst_sorted xs hs 1 (by omega),
    rankFirst_sorted xs hs 2 (by omega), rankFirst_sorted xs hs 3 (by omega),
    rankFirst_sorted xs hs 4 (by omega)]
  norm_num

theorem quintEdges_ranks_five :
    quintEdges [1, 2, 3, 4, 5]
      = [1, 9 / 5, 13 / 5, 17 / 5, 21 / 5, 5] := by
  norm_num [quintEdges, quantile, sortAsc, insertAsc]
  norm_num [Int.toNat]

theorem qcutLabelAsc_bounds (es : List ℚ) (v : ℚ) :
    1 ≤ qcutLabelAsc es v ∧ qcutLabelAsc es v ≤ 5 := by
  have h4 : (((es.drop 1).take 4).filter (fun e => decide (e < v))).length ≤ 4 := by
    refine le_trans (List.length_filter_le _ _) ?_
    rw [List.length_take]
    omega
  rw [qcutLabelAsc]
  omega

theorem qcutLabelDesc_bounds (es : List ℚ) (v : ℚ) :
    1 ≤ qcutLabelDesc es v ∧ qcutLabelDesc es v ≤ 5 := by
  have h4 : (((es.drop 1).take 4).filter (fun e => decide (e < v))).length ≤ 4 := by
    refine le_trans (List.length_filter_le _ _) ?_
    rw [List.length_take]
    omega
  rw [qcutLabelDesc]
  omega

theorem r_score_bounds (recency : List ℚ) (i : ℕ) :
    1 ≤ r_score recency i ∧ r_score recency i ≤ 5 := by
  simp only [r_score]
  split_ifs with h1 h2
  · exact qcutLabelDesc_bounds _ _
  · omega
  · omega

theorem rankQuintScore_bounds (xs : List ℚ) (i : ℕ) :
    1 ≤ rankQuintScore xs i ∧ rankQuintScore xs i ≤ 5 := by
  simp only [rankQuintScore]
  split_ifs with h1 h2
  · exact qcutLabelAsc_bounds _ _
  · omega
  · omega

theorem le_round2 (m : ℤ) (x : ℚ) (h : (m : ℚ) ≤ x) : (m : ℚ) ≤ round2 x := by
  have hr : (m * 100 : ℤ) ≤ round (x * 100) := by
    rw [round_eq, Int.le_floor]
    push_cast
    linarith
  rw [round2, le_div_iff₀ (by norm_num : (0 : ℚ) < 100)]
  calc (m : ℚ) * 100 = ((m * 100 : ℤ) : ℚ) := by push_cast; ring
    _ ≤ ((round (x * 100) : ℤ) : ℚ) := by exact_mod_cast hr

theorem round2_le (m : ℤ) (x : ℚ) (h : x ≤ (m : ℚ)) : round2 x ≤ (m : ℚ) := by
  have hfl : (⌊((m * 100 : ℤ) : ℚ) + 1 / 2⌋ : ℤ) = m * 100 := by
    rw [add_comm, Int.floor_add_int]
    norm_num
  have hr : round (x * 100) ≤ (m * 100 : ℤ) := by
    rw [round_eq, ← hfl]
    apply Int.floor_le_floor
    push_cast
    linarith
  rw [round2, div_le_iff₀ (by norm_num : (0 : ℚ) < 100)]
  calc ((round (x * 100) : ℤ) : ℚ) ≤ ((m * 100 : ℤ) : ℚ) := by exact_mod_cast hr
    _ = (m : ℚ) * 100 := by push_cast; ring

end CustomerSegmentationModel

/-- C6: for 5 customers with distinct strictly increasing monetary values the
quantile scoring gives m_score 5 to the highest and 1 to the lowest; for scores
in their actual 1..5 range the clv score is (r+f+m)/15·100 (the [0,100] clip is
the identity there) rounded to 2 decimals and lies in [0,100]; and the segment
buckets are ≥80 Champions, ≥60 Loyal, ≥40 At-Risk, ≥20 Churn-Risk, below 20
New. -/
theorem C6_five_customer_quantiles (monetary : List ℚ) (h5 : monetary.length = 5)
    (hs : monetary.Pairwise (· < ·)) :
    CustomerSegmentationModel.m_score monetary 4 = 5 ∧
    CustomerSegmentationModel.m_score monetary 0 = 1 ∧
    (∀ r f m : ℕ, 1 ≤ r → r ≤ 5 → 1 ≤ f → f ≤ 5 → 1 ≤ m → m ≤ 5 →
      CustomerSegmentationModel.clv_score r f m
          = CustomerSegmentationModel.round2 (((r : ℚ) + f + m) / 15 * 100) ∧
        0 ≤ CustomerSegmentationModel.clv_score r f m ∧
        CustomerSegmentationModel.clv_score r f m ≤ 100) ∧
    (∀ s : ℚ,
      (80 ≤ s → CustomerSegmentationModel._segment s = "Champions") ∧
      (60 ≤ s → s < 80 → CustomerSegmentationModel._segment s = "Loyal") ∧
      (40 ≤ s → s < 60 → CustomerSegmentationModel._segment s = "At Risk") ∧
      (20 ≤ s → s < 40 → CustomerSegmentationModel._segment s = "Churn Risk") ∧
      (s < 20 → CustomerSegmentationModel._segment s = "New")) := by
  have hranks := CustomerSegmentationModel.ranksList_sorted_five monetary h5 hs
  have hedges := CustomerSegmentationModel.quintEdges_ranks_five
  refine ⟨?_, ?_, ?_, ?_⟩
  · rw [CustomerSegmentationModel.m_score]
    simp only [CustomerSegmentationModel.rankQuintScore]
    rw [hranks, hedges, CustomerSegmentationModel.rankFirst_sorted monetary hs 4 (by omega)]
    norm_num [CustomerSegmentationModel.strictAscend,
      CustomerSegmentationModel.qcutLabelAsc, List.filter]
  · rw [CustomerSegmentationModel.m_score]
    simp only [CustomerSegmentationModel.rankQuintScore]
    rw [hranks, hedges, CustomerSegmentationModel.rankFirst_sorted monetary hs 0 (by omega)]
    norm_num [CustomerSegmentationModel.strictAscend,
      CustomerSegmentationModel.qcutLabelAsc, List.filter]
  · intro r f m hr1 hr5 hf1 hf5 hm1 hm5
    have hsum3 : (3 : ℚ) ≤ (r : ℚ) + f + m := by
      have : (3 : ℕ) ≤ r + f + m := by omega
      exact_mod_cast this
    have hsum15 : (r : ℚ) + f + m ≤ 15 := by
      have : r + f + m ≤ (15 : ℕ) := by omega
      exact_mod_cast this
    have hx20 : (20 : ℚ) ≤ ((r : ℚ) + f + m) / 15 * 100 := by linarith
    have hx100 : ((r : ℚ) + f + m) / 15 * 100 ≤ 100 := by linarith
    have hclamp : min 100 (max 0 (((r : ℚ) + f + m) / 15 * 100))
        = ((r : ℚ) + f + m) / 15 * 100 := by
      rw [max_eq_right (by linarith), min_eq_right hx100]
    have heq : CustomerSegmentationModel.clv_score r f m
        = CustomerSegmentationModel.round2 (((r : ℚ) + f + m) / 15 * 100) := by
      rw [CustomerSegmentationModel.clv_score, hclamp]
    refine ⟨heq, ?_, ?_⟩
    · rw [heq]
      have h0 : ((0 : ℤ) : ℚ) ≤ ((r : ℚ) + f + m) / 15 * 100 := by push_cast; linarith
      simpa using CustomerSegmentationModel.le_round2 0 _ h0
    · rw [heq]
      have h100 : ((r : ℚ) + f + m) / 15 * 100 ≤ ((100 : ℤ) : ℚ) := by
        push_cast; linarith
      simpa using CustomerSegmentationModel.round2_le 100 _ h100
  · intro s
    refine ⟨?_, ?_, ?_, ?_, ?_⟩
    · intro h1
      rw [CustomerSegmentationModel._segment, if_pos h1]
    · intro h1 h2
      rw [CustomerSegmentationModel._segment, if_neg (by linarith), if_pos h1]
    · intro h1 h2
      rw [CustomerSegmentationModel._segment, if_neg (by linarith),
        if_neg (by linarith), if_pos h1]
    · intro h1 h2
      rw [CustomerSegmentationModel._segment, if_neg (by linarith),
        if_neg (by linarith), if_neg (by linarith), if_pos h1]
    · intro h1
      rw [CustomerSegmentationModel._segment, if_neg (by linarith),
        if_neg (by linarith), if_neg (by linarith), if_neg (by linarith)]

/-- Witness for C6 on monetary values [10, 20, 30, 40, 50]. -/
theorem C6_five_customer_quantiles_witness :
    CustomerSegmentationModel.m_score [10, 20, 30, 40, 50] 4 = 5 ∧
    CustomerSegmentationModel.m_score [10, 20, 30, 40, 50] 0 = 1 ∧
    (∀ r f m : ℕ, 1 ≤ r → r ≤ 5 → 1 ≤ f → f ≤ 5 → 1 ≤ m → m ≤ 5 →
      CustomerSegmentationModel.clv_score r f m
          = CustomerSegmentationModel.round2 (((r : ℚ) + f + m) / 15 * 100) ∧
        0 ≤ CustomerSegmentationModel.clv_score r f m ∧
        CustomerSegmentationModel.clv_score r f m ≤ 100) ∧
    (∀ s : ℚ,
      (80 ≤ s → CustomerSegmentationModel._segment s = "Champions") ∧
      (60 ≤ s → s < 80 → CustomerSegmentationModel._segment s = "Loyal") ∧
      (40 ≤ s → s < 60 → CustomerSegmentationModel._segment s = "At Risk") ∧
      (20 ≤ s → s < 40 → CustomerSegmentationModel._segment s = "Churn Risk") ∧
      (s < 20 → CustomerSegmentationModel._segment s = "New")) :=
  C6_five_customer_quantiles [10, 20, 30, 40, 50] (by rfl)
    (by norm_num [List.pairwise_cons])

namespace CustomerSegmentationModel

theorem segment_ne_new_of_twenty_le (s : ℚ) (h : 20 ≤ s) :
    _segment s ≠ "New" := by
  rw [_segment]
  split_ifs with h1 h2 h3
  · decide
  · decide
  · decide
  · decide

theorem f_score_bounds (freq : List ℚ) (i : ℕ) :
    1 ≤ f_score freq i ∧ f_score freq i ≤ 5 :=
  rankQuintScore_bounds freq i

theorem m_score_bounds (monetary : List ℚ) (i : ℕ) :
    1 ≤ m_score monetary i ∧ m_score monetary i ≤ 5 :=
  rankQuintScore_bounds monetary i

end CustomerSegmentationModel

/-- C10: for every customer each of the r, f and m scores lies in 1..5 — the
quantile path labels are 1..5 and the median-split fallbacks assign only 5 or 3
for recency and 2 or 4 for frequency and monetary — hence the clv score
(r+f+m)/15·100 is at least 20 and the segment "New", reserved for scores below
20, is never assigned. -/
theorem C10_new_segment_unreachable (recency freq monetary : List ℚ) (i : ℕ) :
    (1 ≤ CustomerSegmentationModel.r_score recency i ∧
      CustomerSegmentationModel.r_score recency i ≤ 5) ∧
    (1 ≤ CustomerSegmentationModel.f_score freq i ∧
      CustomerSegmentationModel.f_score freq i ≤ 5) ∧
    (1 ≤ CustomerSegmentationModel.m_score monetary i ∧
      CustomerSegmentationModel.m_score monetary i ≤ 5) ∧
    (CustomerSegmentationModel.strictAscend
        (CustomerSegmentationModel.quintEdges recency) = false →
      CustomerSegmentationModel.r_score recency i = 5 ∨
      CustomerSegmentationModel.r_score recency i = 3) ∧
    (CustomerSegmentationModel.strictAscend (CustomerSegmentationModel.quintEdges
        (CustomerSegmentationModel.ranksList freq)) = false →
      CustomerSegmentationModel.f_score freq i = 2 ∨
      CustomerSegmentationModel.f_score freq i = 4) ∧
    (CustomerSegmentationModel.strictAscend (CustomerSegmentationModel.quintEdges
        (CustomerSegmentationModel.ranksList monetary)) = false →
      CustomerSegmentationModel.m_score monetary i = 2 ∨
      CustomerSegmentationModel.m_score monetary i = 4) ∧
    20 ≤ CustomerSegmentationModel.clv_score
      (CustomerSegmentationModel.r_score recency i)
      (CustomerSegmentationModel.f_score freq i)
      (CustomerSegmentationModel.m_score monetary i) ∧
    CustomerSegmentationModel._segment (CustomerSegmentationModel.clv_score
      (CustomerSegmentationModel.r_score recency i)
      (CustomerSegmentationModel.f_score freq i)
      (CustomerSegmentationModel.m_score monetary i)) ≠ "New" := by
  have hrb := CustomerSegmentationModel.r_score_bounds recency i
  have hfb := CustomerSegmentationModel.f_score_bounds freq i
  have hmb := CustomerSegmentationModel.m_score_bounds monetary i
  have h20 : 20 ≤ CustomerSegmentationModel.clv_score
      (CustomerSegmentationModel.r_score recency i)
      (CustomerSegmentationModel.f_score freq i)
      (CustomerSegmentationModel.m_score monetary i) := by
    set r := CustomerSegmentationModel.r_score recency i with hr
    set f := CustomerSegmentationModel.f_score freq i with hf
    set m := CustomerSegmentationModel.m_score monetary i with hm
    have hsum : (3 : ℚ) ≤ (r : ℚ) + f + m := by
      have h3 : (3 : ℕ) ≤ r + f + m := by
        have := hrb.1
        have := hfb.1
        have := hmb.1
        omega
      exact_mod_cast h3
    have hx : (20 : ℚ) ≤ ((r : ℚ) + f + m) / 15 * 100 := by linarith
    have hmin : ((20 : ℤ) : ℚ) ≤ min 100 (max 0 (((r : ℚ) + f + m) / 15 * 100)) := by
      push_cast
      exact le_min (by norm_num) (le_trans hx (le_max_right _ _))
    rw [CustomerSegmentationModel.clv_score]
    simpa using CustomerSegmentationModel.le_round2 20 _ hmin
  refine ⟨hrb, hfb, hmb, ?_, ?_, ?_, h20,
    CustomerSegmentationModel.segment_ne_new_of_twenty_le _ h20⟩
  · intro hfall
    simp only [CustomerSegmentationModel.r_score, hfall, Bool.false_eq_true,
      if_false]
    split_ifs with h
    · exact Or.inl rfl
    · exact Or.inr rfl
  · intro hfall
    simp only [CustomerSegmentationModel.f_score,
      CustomerSegmentationModel.rankQuintScore, hfall, Bool.false_eq_true,
      if_false]
    split_ifs with h
    · exact Or.inl rfl
    · exact Or.inr rfl
  · intro hfall
    simp only [CustomerSegmentationModel.m_score,
      CustomerSegmentationModel.rankQuintScore, hfall, Bool.false_eq_true,
      if_false]
    split_ifs with h
    · exact Or.inl rfl
    · exact Or.inr rfl

/-- Witness for C10 on empty columns at index 0 (both fallback paths fire:
r = 5, f = m = 2, clv = 60, segment Loyal). -/
theorem C10_new_segment_unreachable_witness :
    (1 ≤ CustomerSegmentationModel.r_score [] 0 ∧
      CustomerSegmentationModel.r_score [] 0 ≤ 5) ∧
    (1 ≤ CustomerSegmentationModel.f_score [] 0 ∧
      CustomerSegmentationModel.f_score [] 0 ≤ 5) ∧
    (1 ≤ CustomerSegmentationModel.m_score [] 0 ∧
      CustomerSegmentationModel.m_score [] 0 ≤ 5) ∧
    (CustomerSegmentationModel.strictAscend
        (CustomerSegmentationModel.quintEdges []) = false →
      CustomerSegmentationModel.r_score [] 0 = 5 ∨
      CustomerSegmentationModel.r_score [] 0 = 3) ∧
    (CustomerSegmentationModel.strictAscend (CustomerSegmentationModel.quintEdges
        (CustomerSegmentationModel.ranksList [])) = false →
      CustomerSegmentationModel.f_score [] 0 = 2 ∨
      CustomerSegmentationModel.f_score [] 0 = 4) ∧
    (CustomerSegmentationModel.strictAscend (CustomerSegmentationModel.quintEdges
        (CustomerSegmentationModel.ranksList [])) = false →
      CustomerSegmentationModel.m_score [] 0 = 2 ∨
      CustomerSegmentationModel.m_score [] 0 = 4) ∧
    20 ≤ CustomerSegmentationModel.clv_score
      (CustomerSegmentationModel.r_score [] 0)
      (CustomerSegmentationModel.f_score [] 0)
      (CustomerSegmentationModel.m_score [] 0) ∧
    CustomerSegmentationModel._segment (CustomerSegmentationModel.clv_score
      (CustomerSegmentationModel.r_score [] 0)
      (CustomerSegmentationModel.f_score [] 0)
      (CustomerSegmentationModel.m_score [] 0)) ≠ "New" :=
  C10_new_segment_unreachable [] [] [] 0

namespace SupplierPerformanceModel

/-- One approved purchase line row of one supplier's group, after the date and
numeric fixes of `score_suppliers` (src/models/supplier_performance_model.py
lines 39-56). -/
structure PurchaseRow where
  days_to_deliver : ℝ
  quantity_ordered : ℝ
  quantity_received : ℝ
  rejected : Bool
  unit_cost : ℝ

/-- On-time rate (lines 64-66): share of rows delivered within the group's
average lead time, times 100.  The 2-decimal output rounding is presentation
only and is not modelled (likewise below). -/
noncomputable def on_time_rate (grp : List PurchaseRow) : ℝ :=
  Stats.mean (grp.map (fun r =>
    if r.days_to_deliver ≤ Stats.mean (grp.map PurchaseRow.days_to_deliver)
    then (1 : ℝ) else 0)) * 100

/-- Accuracy rate (lines 54-56, 69): share of rows with received within 0.01 of
ordered, times 100. -/
noncomputable def accuracy_rate (grp : List PurchaseRow) : ℝ :=
  Stats.mean (grp.map (fun r =>
    if |r.quantity_ordered - r.quantity_received| ≤ 0.01
    then (1 : ℝ) else 0)) * 100

/-- Rejection rate (line 72): share of rejected rows, times 100. -/
noncomputable def rejection_rate (grp : List PurchaseRow) : ℝ :=
  Stats.mean (grp.map (fun r => if r.rejected then (1 : ℝ) else 0)) * 100

/-- Cost stability (lines 74-79): 100 when the mean unit cost is 0, else
max(0, 100·(1 − cv)) with cv the coefficient of variation of the unit costs. -/
noncomputable def cost_stability (grp : List PurchaseRow) : ℝ :=
  if Stats.mean (grp.map PurchaseRow.unit_cost) = 0 then 100
  else max 0 (100 * (1 - Stats.pstdev (grp.map PurchaseRow.unit_cost)
    / Stats.mean (grp.map PurchaseRow.unit_cost)))

/-- Overall score (lines 82-87): the fixed weighted sum
0.40·on_time + 0.30·accuracy + 0.10·(100 − rejection) + 0.20·cost_stability. -/
noncomputable def overall_score (grp : List PurchaseRow) : ℝ :=
  0.40 * on_time_rate grp + 0.30 * accuracy_rate grp
    + 0.10 * (100 - rejection_rate grp) + 0.20 * cost_stability grp

end SupplierPerformanceModel

namespace SalesPerformanceModel

/-- Aggregated per-salesperson row after the current/previous window merge of
`score_salespersons` (src/models/sales_performance_model.py lines 64-83):
current-window sales total and distinct order count, and previous-window sales
total (0 when absent). -/
structure SpRow where
  total_sales : ℚ
  total_orders : ℕ
  total_sales_prev : ℚ

/-- `_calc_growth` (lines 10-13). -/
def _calc_growth (cur prev : ℚ) : ℚ :=
  if prev = 0 then (if cur > 0 then 100 else 0)
  else (cur - prev) / prev * 100

/-- `_trend_from_growth` (lines 16-21). -/
def _trend_from_growth (g : ℚ) : String :=
  if g > 5 then "UP" else if g < -5 then "DOWN" else "FLAT"

/-- Average order value (line 71); groups always hold at least one order. -/
def avg_order_value (r : SpRow) : ℚ := r.total_sales / (r.total_orders : ℚ)

/-- Growth-rate column (lines 84-85), the value stored in the output record
(line 106). -/
def growth_rate (r : SpRow) : ℚ := _calc_growth r.total_sales r.total_sales_prev

/-- Maximum of a column, `Series.max`, taken as 0 for the empty list; on the
nonnegative columns it is applied to, this is the series maximum. -/
def maxQ (xs : List ℚ) : ℚ := xs.foldr max 0

/-- Composite performance score (lines 88-94): each column normalized by its
maximum (0/0 read as 0, matching `fillna(0)`), growth clipped to [−50, 50] and
shifted into [0, 1], combined as (0.55·sales + 0.20·aov + 0.25·growth)·100.
The 2-decimal rounding of line 95 is presentation only. -/
def performance_score (rows : List SpRow) (r : SpRow) : ℚ :=
  let sales_norm := r.total_sales / maxQ (rows.map SpRow.total_sales)
  let aov_norm := avg_order_value r / maxQ (rows.map avg_order_value)
  let growth_norm := (min 50 (max (-50) (growth_rate r)) + 50) / 100
  (0.55 * sales_norm + 0.20 * aov_norm + 0.25 * growth_norm) * 100

theorem le_maxQ (xs : List ℚ) (x : ℚ) (hx : x ∈ xs) : x ≤ maxQ xs := by
  induction xs with
  | nil => cases hx
  | cons a tl ih =>
      rcases List.mem_cons.mp hx with h | h
      · rw [h, maxQ, List.foldr_cons]
        exact le_max_left _ _
      · rw [maxQ, List.foldr_cons]
        exact le_trans (ih h) (le_max_right _ _)

end SalesPerformanceModel

namespace Stats

theorem mean_nonneg (xs : List ℝ) (h : ∀ x ∈ xs, 0 ≤ x) : 0 ≤ mean xs :=
  div_nonneg (List.sum_nonneg h) (Nat.cast_nonneg _)

theorem mean_le_one (xs : List ℝ) (h : ∀ x ∈ xs, x ≤ 1) : mean xs ≤ 1 := by
  by_cases hn : xs.length = 0
  · rw [List.length_eq_zero] at hn
    rw [hn]
    norm_num [mean]
  · have hl : (0 : ℝ) < xs.length := by
      have : 0 < xs.length := Nat.pos_of_ne_zero hn
      exact_mod_cast this
    rw [mean, div_le_one hl]
    have := List.sum_le_card_nsmul xs 1 h
    simpa [nsmul_eq_mul] using this

theorem mean_zero_one_bounds (xs : List ℝ) (h : ∀ x ∈ xs, x = 0 ∨ x = 1) :
    0 ≤ mean xs ∧ mean xs ≤ 1 := by
  constructor
  · refine mean_nonneg xs fun x hx => ?_
    rcases h x hx with h0 | h1
    · rw [h0]
    · rw [h1]; norm_num
  · refine mean_le_one xs fun x hx => ?_
    rcases h x hx with h0 | h1
    · rw [h0]; norm_num
    · rw [h1]

end Stats

namespace SalesPerformanceModel

theorem maxQ_nonneg (xs : List ℚ) : 0 ≤ maxQ xs := by
  induction xs with
  | nil => exact le_refl 0
  | cons a tl ih =>
      rw [maxQ, List.foldr_cons]
      exact le_trans ih (le_max_right _ _)

theorem div_unit_bounds (x m : ℚ) (h0 : 0 ≤ x) (hm : x ≤ m) :
    0 ≤ x / m ∧ x / m ≤ 1 := by
  rcases lt_or_eq_of_le (le_trans h0 hm) with hpos | heq
  · exact ⟨div_nonneg h0 (le_of_lt hpos), (div_le_one hpos).mpr hm⟩
  · have hx : x = 0 := le_antisymm (heq ▸ hm) h0
    rw [hx, zero_div]
    norm_num

end SalesPerformanceModel

/-- C9 counterexample: the salesperson record stores the raw growth rate, which
is not bounded by 100 — a salesperson whose sales went from 100 to 300 gets
growth_rate 200, so not every component rate of every performance record lies in
[0, 100]. -/
theorem C9_growth_rate_counterexample :
    SalesPerformanceModel.growth_rate ⟨300, 1, 100⟩ = 200 ∧
    ¬ SalesPerformanceModel.growth_rate ⟨300, 1, 100⟩ ≤ 100 := by
  constructor <;>
    norm_num [SalesPerformanceModel.growth_rate, SalesPerformanceModel._calc_growth]

/-- C9 amended: every supplier record's on-time, accuracy and rejection rates
lie in [0,100] unconditionally and its cost stability does whenever unit costs
are nonnegative, with the overall score the fixed weighted sum
0.40·on_time + 0.30·accuracy + 0.10·(100 − rejection) + 0.20·cost_stability,
again in [0,100]; every salesperson record's performance score is the fixed
weighted sum (0.55·sales_norm + 0.20·aov_norm + 0.25·growth_norm)·100 of
normalized components and lies in [0,100] whenever sales totals are nonnegative
— but the stored raw growth rate is unbounded (see the counterexample). -/
theorem C9_performance_score_bounds
    (grp : List SupplierPerformanceModel.PurchaseRow)
    (hcost : ∀ r ∈ grp, 0 ≤ r.unit_cost)
    (rows : List SalesPerformanceModel.SpRow) (r : SalesPerformanceModel.SpRow)
    (hmem : r ∈ rows)
    (hrows : ∀ q ∈ rows, 0 ≤ q.total_sales ∧ 1 ≤ q.total_orders) :
    (0 ≤ SupplierPerformanceModel.on_time_rate grp ∧
      SupplierPerformanceModel.on_time_rate grp ≤ 100) ∧
    (0 ≤ SupplierPerformanceModel.accuracy_rate grp ∧
      SupplierPerformanceModel.accuracy_rate grp ≤ 100) ∧
    (0 ≤ SupplierPerformanceModel.rejection_rate grp ∧
      SupplierPerformanceModel.rejection_rate grp ≤ 100) ∧
    (0 ≤ SupplierPerformanceModel.cost_stability grp ∧
      SupplierPerformanceModel.cost_stability grp ≤ 100) ∧
    SupplierPerformanceModel.overall_score grp
      = 0.40 * SupplierPerformanceModel.on_time_rate grp
        + 0.30 * SupplierPerformanceModel.accuracy_rate grp
        + 0.10 * (100 - SupplierPerformanceModel.rejection_rate grp)
        + 0.20 * SupplierPerformanceModel.cost_stability grp ∧
    (0 ≤ SupplierPerformanceModel.overall_score grp ∧
      SupplierPerformanceModel.overall_score grp ≤ 100) ∧
    (0 ≤ SalesPerformanceModel.performance_score rows r ∧
      SalesPerformanceModel.performance_score rows r ≤ 100) := by
  have hind : ∀ (f : SupplierPerformanceModel.PurchaseRow → ℝ),
      (∀ q ∈ grp, f q = 0 ∨ f q = 1) →
      0 ≤ Stats.mean (grp.map f) ∧ Stats.mean (grp.map f) ≤ 1 := by
    intro f hf
    refine Stats.mean_zero_one_bounds _ fun x hx => ?_
    obtain ⟨q, hq, rfl⟩ := List.mem_map.mp hx
    exact hf q hq
  have hot : 0 ≤ SupplierPerformanceModel.on_time_rate grp ∧
      SupplierPerformanceModel.on_time_rate grp ≤ 100 := by
    have := hind (fun q =>
      if q.days_to_deliver ≤ Stats.mean
        (grp.map SupplierPerformanceModel.PurchaseRow.days_to_deliver)
      then (1 : ℝ) else 0) (fun q _ => by dsimp only; split_ifs <;> simp)
    rw [SupplierPerformanceModel.on_time_rate]
    constructor <;> nlinarith [this.1, this.2]
  have hacc : 0 ≤ SupplierPerformanceModel.accuracy_rate grp ∧
      SupplierPerformanceModel.accuracy_rate grp ≤ 100 := by
    have := hind (fun q =>
      if |q.quantity_ordered - q.quantity_received| ≤ 0.01
      then (1 : ℝ) else 0) (fun q _ => by dsimp only; split_ifs <;> simp)
    rw [SupplierPerformanceModel.accuracy_rate]
    constructor <;> nlinarith [this.1, this.2]
  have hrej : 0 ≤ SupplierPerformanceModel.rejection_rate grp ∧
      SupplierPerformanceModel.rejection_rate grp ≤ 100 := by
    have := hind (fun q => if q.rejected then (1 : ℝ) else 0)
      (fun q _ => by dsimp only; split_ifs <;> simp)
    rw [SupplierPerformanceModel.rejection_rate]
    constructor <;> nlinarith [this.1, this.2]
  have hcs : 0 ≤ SupplierPerformanceModel.cost_stability grp ∧
      SupplierPerformanceModel.cost_stability grp ≤ 100 := by
    rw [SupplierPerformanceModel.cost_stability]
    split_ifs with hm
    · norm_num
    · have hmean : 0 ≤ Stats.mean
          (grp.map SupplierPerformanceModel.PurchaseRow.unit_cost) := by
        refine Stats.mean_nonneg _ fun x hx => ?_
        obtain ⟨q, hq, rfl⟩ := List.mem_map.mp hx
        exact hcost q hq
      have hsd : 0 ≤ Stats.pstdev
          (grp.map SupplierPerformanceModel.PurchaseRow.unit_cost) :=
        Real.sqrt_nonneg _
      have hcv : 0 ≤ Stats.pstdev
            (grp.map SupplierPerformanceModel.PurchaseRow.unit_cost)
          / Stats.mean (grp.map SupplierPerformanceModel.PurchaseRow.unit_cost) :=
        div_nonneg hsd hmean
      exact ⟨le_max_left _ _, max_le (by norm_num) (by linarith)⟩
  have hov : SupplierPerformanceModel.overall_score grp
      = 0.40 * SupplierPerformanceModel.on_time_rate grp
        + 0.30 * SupplierPerformanceModel.accuracy_rate grp
        + 0.10 * (100 - SupplierPerformanceModel.rejection_rate grp)
        + 0.20 * SupplierPerformanceModel.cost_stability grp := rfl
  have hovb : 0 ≤ SupplierPerformanceModel.overall_score grp ∧
      SupplierPerformanceModel.overall_score grp ≤ 100 := by
    rw [hov]
    constructor
    · nlinarith [hot.1, hacc.1, hrej.2, hcs.1]
    · nlinarith [hot.2, hacc.2, hrej.1, hcs.2]
  have hsales_norm : 0 ≤ r.total_sales
        / SalesPerformanceModel.maxQ (rows.map SalesPerformanceModel.SpRow.total_sales) ∧
      r.total_sales
        / SalesPerformanceModel.maxQ (rows.map SalesPerformanceModel.SpRow.total_sales)
        ≤ 1 :=
    SalesPerformanceModel.div_unit_bounds _ _ (hrows r hmem).1
      (SalesPerformanceModel.le_maxQ _ _ (List.mem_map_of_mem _ hmem))
  have haov0 : 0 ≤ SalesPerformanceModel.avg_order_value r :=
    div_nonneg (hrows r hmem).1 (Nat.cast_nonneg _)
  have haov_norm : 0 ≤ SalesPerformanceModel.avg_order_value r
        / SalesPerformanceModel.maxQ (rows.map SalesPerformanceModel.avg_order_value) ∧
      SalesPerformanceModel.avg_order_value r
        / SalesPerformanceModel.maxQ (rows.map SalesPerformanceModel.avg_order_value)
        ≤ 1 :=
    SalesPerformanceModel.div_unit_bounds _ _ haov0
      (SalesPerformanceModel.le_maxQ _ _ (List.mem_map_of_mem _ hmem))
  have hgrowth : 0 ≤ (min 50 (max (-50) (SalesPerformanceModel.growth_rate r)) + 50) / 100 ∧
      (min 50 (max (-50) (SalesPerformanceModel.growth_rate r)) + 50) / 100 ≤ 1 := by
    have hlo : (-50 : ℚ) ≤ min 50 (max (-50) (SalesPerformanceModel.growth_rate r)) :=
      le_min (by norm_num) (le_max_left _ _)
    have hhi : min 50 (max (-50) (SalesPerformanceModel.growth_rate r)) ≤ 50 :=
      min_le_left _ _
    constructor
    · apply div_nonneg (by linarith) (by norm_num)
    · rw [div_le_one (by norm_num : (0 : ℚ) < 100)]
      linarith
  have hperf : 0 ≤ SalesPerformanceModel.performance_score rows r ∧
      SalesPerformanceModel.performance_score rows r ≤ 100 := by
    rw [SalesPerformanceModel.performance_score]
    constructor
    · nlinarith [hsales_norm.1, haov_norm.1, hgrowth.1]
    · nlinarith [hsales_norm.2, haov_norm.2, hgrowth.2,
        hsales_norm.1, haov_norm.1, hgrowth.1]
  exact ⟨hot, hacc, hrej, hcs, hov, hovb, hperf⟩

/-- Witness for C9 amended on a one-row supplier group (cost 2) and a single
salesperson with sales 100 over 1 order and previous sales 50. -/
theorem C9_performance_score_bounds_witness :
    (0 ≤ SupplierPerformanceModel.on_time_rate [⟨0, 1, 1, false, 2⟩] ∧
      SupplierPerformanceModel.on_time_rate [⟨0, 1, 1, false, 2⟩] ≤ 100) ∧
    (0 ≤ SupplierPerformanceModel.accuracy_rate [⟨0, 1, 1, false, 2⟩] ∧
      SupplierPerformanceModel.accuracy_rate [⟨0, 1, 1, false, 2⟩] ≤ 100) ∧
    (0 ≤ SupplierPerformanceModel.rejection_rate [⟨0, 1, 1, false, 2⟩] ∧
      SupplierPerformanceModel.rejection_rate [⟨0, 1, 1, false, 2⟩] ≤ 100) ∧
    (0 ≤ SupplierPerformanceModel.cost_stability [⟨0, 1, 1, false, 2⟩] ∧
      SupplierPerformanceModel.cost_stability [⟨0, 1, 1, false, 2⟩] ≤ 100) ∧
    SupplierPerformanceModel.overall_score [⟨0, 1, 1, false, 2⟩]
      = 0.40 * SupplierPerformanceModel.on_time_rate [⟨0, 1, 1, false, 2⟩]
        + 0.30 * SupplierPerformanceModel.accuracy_rate [⟨0, 1, 1, false, 2⟩]
        + 0.10 * (100 - SupplierPerformanceModel.rejection_rate [⟨0, 1, 1, false, 2⟩])
        + 0.20 * SupplierPerformanceModel.cost_stability [⟨0, 1, 1, false, 2⟩] ∧
    (0 ≤ SupplierPerformanceModel.overall_score [⟨0, 1, 1, false, 2⟩] ∧
      SupplierPerformanceModel.overall_score [⟨0, 1, 1, false, 2⟩] ≤ 100) ∧
    (0 ≤ SalesPerformanceModel.performance_score [⟨100, 1, 50⟩] ⟨100, 1, 50⟩ ∧
      SalesPerformanceModel.performance_score [⟨100, 1, 50⟩] ⟨100, 1, 50⟩ ≤ 100) :=
  C9_performance_score_bounds [⟨0, 1, 1, false, 2⟩]
    (by
      intro q hq
      simp only [List.mem_singleton] at hq
      subst hq
      norm_num)
    [⟨100, 1, 50⟩] ⟨100, 1, 50⟩ (List.mem_singleton.mpr rfl)
    (by
      intro q hq
      simp only [List.mem_singleton] at hq
      subst hq
      constructor <;> norm_num)
